import Mathlib

/-
Shallow embedding of the annuity-pricing engine.

Sources embedded here:
  - annuity_pricing/validation/gates.py       (gate statuses, FIA option budget gate, report aggregation)
  - annuity_pricing/products/fia.py           (crediting-method dispatch)
  - annuity_pricing/products/rila.py          (protection type and max loss)
  - annuity_pricing/behavioral/withdrawal.py  (withdrawal utilization)
  - annuity_pricing/behavioral/dynamic_lapse.py (dynamic lapse, survival curve)
  - annuity_pricing/glwb/path_sim.py          (fair-fee bisection)
  - annuity_pricing/regulatory/scenarios.py   (correlated shocks, Vasicek rate paths)

Monetary amounts and rates are modelled as rationals where the Python code
uses only field operations and order, and as reals where it uses powers,
square roots or exponentials.  Functions that raise ValueError are modelled
as Option-valued, returning none exactly on the raising inputs.
-/

/-- Clipping as numpy does it: values below lo become lo, values above hi
become hi (the maximum is applied first, then the minimum). -/
def npClip {α : Type} [LinearOrder α] (x lo hi : α) : α :=
  min (max x lo) hi

/-! ## validation/gates.py -/

/-- Status of a validation gate (class GateStatus). -/
inductive GateStatus
  | pass
  | halt
  | warn
deriving DecidableEq

/-- Result of a validation gate check (class GateResult); the formatted
message and the value/threshold diagnostics are omitted, the status and the
gate name are kept. -/
structure GateResult where
  status : GateStatus
  gate_name : String
deriving DecidableEq

/-- Complete validation report from all gates (class ValidationReport). -/
structure ValidationReport where
  results : List GateResult
deriving DecidableEq

/-- ValidationReport.overall_status: HALT if any gate halted, otherwise WARN
if any gate warned, otherwise PASS. -/
def ValidationReport.overall_status (rep : ValidationReport) : GateStatus :=
  if rep.results.any (fun r => r.status == GateStatus.halt) then GateStatus.halt
  else if rep.results.any (fun r => r.status == GateStatus.warn) then GateStatus.warn
  else GateStatus.pass

/-- Severity order on gate statuses: PASS is best, HALT is worst. -/
def GateStatus.severity : GateStatus → ℕ
  | .pass => 0
  | .warn => 1
  | .halt => 2

/-- The worse of two gate statuses, by severity. -/
def worstStatus (a b : GateStatus) : GateStatus :=
  if b.severity ≤ a.severity then a else b

/-- The spec's wording of report aggregation: the worst status across the
gate results. -/
def specWorstStatus (rep : ValidationReport) : GateStatus :=
  rep.results.foldr (fun r acc => worstStatus r.status acc) GateStatus.pass

/-- Pricing results as the gates see them (isinstance checks in gates.py):
a FIA result with its option-value fields, a RILA result with its
protection fields, or any other pricing result. -/
inductive GatePricingResult
  | fia (embedded_option_value option_budget expected_credit : ℚ)
  | rila (protection_value : ℚ) (protection_type : String) (max_loss : ℚ)
  | other
deriving DecidableEq

/-- FIAOptionBudgetGate.check: not a FIA result passes; zero or negative
budget warns; ratio above 1 + tolerance warns; otherwise passes. -/
def FIAOptionBudgetGate.check (tolerance : ℚ) (result : GatePricingResult) : GateResult :=
  match result with
  | .fia embedded_option_value option_budget _ =>
    if option_budget ≤ 0 then
      ⟨GateStatus.warn, "fia_option_budget"⟩
    else if embedded_option_value / option_budget > 1 + tolerance then
      ⟨GateStatus.warn, "fia_option_budget"⟩
    else
      ⟨GateStatus.pass, "fia_option_budget"⟩
  | _ => ⟨GateStatus.pass, "fia_option_budget"⟩

/-! ## products/fia.py -/

/-- The crediting fields of a FIA product record (class FIAProduct in the
data schemas); only the fields read by the crediting dispatch are kept. -/
structure FIAProduct where
  cap_rate : Option ℚ
  participation_rate : Option ℚ
  spread_rate : Option ℚ
  performance_triggered_rate : Option ℚ
deriving DecidableEq

/-- A crediting method together with the parameter dict built for it. -/
inductive CreditingMethod
  | cap (cap_rate : ℚ)
  | participation (participation_rate : ℚ) (cap_rate : Option ℚ)
  | spread (spread_rate : ℚ) (cap_rate : Option ℚ)
  | trigger (trigger_rate : ℚ)
deriving DecidableEq

/-- FIAPricer._determine_crediting_method: picks the crediting method by
priority cap, participation, spread, trigger; raises (none) when no
crediting field is set. -/
def FIAPricer.determine_crediting_method (p : FIAProduct) : Option CreditingMethod :=
  match p.cap_rate with
  | some c => some (CreditingMethod.cap c)
  | none =>
    match p.participation_rate with
    | some pr => some (CreditingMethod.participation pr p.cap_rate)
    | none =>
      match p.spread_rate with
      | some s => some (CreditingMethod.spread s p.cap_rate)
      | none =>
        match p.performance_triggered_rate with
        | some t => some (CreditingMethod.trigger t)
        | none => none

/-! ## products/rila.py -/

/-- Whether a list of characters starts with the pattern. -/
def strStartsWith : List Char → List Char → Bool
  | _, [] => true
  | [], _ :: _ => false
  | c :: cs, p :: ps => c == p && strStartsWith cs ps

/-- Whether the pattern occurs as a contiguous substring. -/
def strContains : List Char → List Char → Bool
  | [], pat => pat.isEmpty
  | c :: cs, pat => strStartsWith (c :: cs) pat || strContains cs pat

/-- The fields of a RILA product record read by the pricer. -/
structure RILAProduct where
  buffer_modifier : String
  buffer_rate : Option ℚ
  cap_rate : Option ℚ
  term_years : Option ℚ
deriving DecidableEq

/-- Modelled from the spec: RILAProduct.is_buffer is defined in
annuity_pricing/data/schemas.py, which is not among the provided source
files.  The spec derives the protection tag from the textual buffer
modifier: a modifier containing "up to" means Buffer, "after" means Floor
(the pricer treats every non-buffer product as a floor product). -/
def RILAProduct.is_buffer (p : RILAProduct) : Bool :=
  strContains (p.buffer_modifier.data.map Char.toLower) (("up to").data)

/-- RILAPricer.price, restricted to the control flow and the fields the
claims concern: term resolution, protection-type dispatch, the buffer-rate
presence check, and the max-loss computation.  The option-replication
values and the Monte Carlo expected return of the full result do not feed
back into these fields and are not modelled.  Returns
(protection_type, max_loss); none models the ValueError paths. -/
def RILAPricer.price (p : RILAProduct) (term_years : Option ℚ) : Option (String × ℚ) :=
  let t : Option ℚ :=
    match term_years with
    | some t => some t
    | none => p.term_years
  match t with
  | none => none
  | some t =>
    if t ≤ 0 then none
    else
      match p.buffer_rate with
      | none => none
      | some b =>
        let max_loss : ℚ := if p.is_buffer then 1 - b else b
        some (if p.is_buffer then "buffer" else "floor", max_loss)

/-! ## behavioral/withdrawal.py -/

/-- Withdrawal behavior assumptions (class WithdrawalAssumptions). -/
structure WithdrawalAssumptions where
  base_utilization : ℚ
  age_sensitivity : ℚ
  min_utilization : ℚ
  max_utilization : ℚ
deriving DecidableEq

/-- Result of a withdrawal calculation (class WithdrawalResult). -/
structure WithdrawalResult where
  withdrawal_amount : ℚ
  utilization_rate : ℚ
  max_allowed : ℚ
deriving DecidableEq

/-- WithdrawalModel._calculate_utilization: base plus age adjustment above
age 65, ramped in the first three withdrawal years, then clipped. -/
def WithdrawalModel.calculate_utilization (a : WithdrawalAssumptions) (age : ℤ)
    (years_since_first_withdrawal : ℕ) : ℚ :=
  let utilization : ℚ :=
    a.base_utilization + a.age_sensitivity * ((max 0 (age - 65) : ℤ) : ℚ)
  let utilization : ℚ :=
    if years_since_first_withdrawal < 3 then
      utilization * (7/10 + 1/10 * (years_since_first_withdrawal : ℚ))
    else utilization
  npClip utilization a.min_utilization a.max_utilization

/-- WithdrawalModel.calculate_withdrawal: validates the inputs, then
returns max allowed withdrawal times the utilization rate. -/
def WithdrawalModel.calculate_withdrawal (a : WithdrawalAssumptions) (gwb withdrawal_rate : ℚ)
    (age : ℤ) (years_since_first_withdrawal : ℕ) : Option WithdrawalResult :=
  if gwb < 0 then none
  else if withdrawal_rate < 0 ∨ withdrawal_rate > 1 then none
  else
    let max_allowed := gwb * withdrawal_rate
    let utilization := WithdrawalModel.calculate_utilization a age years_since_first_withdrawal
    some ⟨max_allowed * utilization, utilization, max_allowed⟩

/-- The spec's ramp factor: 0.7, 0.8, 0.9 in the first three withdrawal
years and 1 afterwards. -/
def specWithdrawalRamp (years_since_first_withdrawal : ℕ) : ℚ :=
  if years_since_first_withdrawal = 0 then 7/10
  else if years_since_first_withdrawal = 1 then 8/10
  else if years_since_first_withdrawal = 2 then 9/10
  else 1

/-! ## behavioral/dynamic_lapse.py, survival curve -/

/-- Inner loop of DynamicLapseModel.calculate_survival_probability: given
the running survival probability, multiply by the per-step stay
probability, which is 1 - lapse*dt floored at 0. -/
def survival_from (s : ℚ) (dt : ℚ) : List ℚ → List ℚ
  | [] => []
  | l :: ls =>
    let s2 := s * max (1 - l * dt) 0
    s2 :: survival_from s2 dt ls

/-- DynamicLapseModel.calculate_survival_probability: the cumulative
survival curve, starting at 1. -/
def calculate_survival_probability (lapse_rates : List ℚ) (dt : ℚ) : List ℚ :=
  1 :: survival_from 1 dt lapse_rates

/-! ## glwb/path_sim.py, fair-fee bisection -/

/-- Bisection loop of GLWBPathSimulator.calculate_fair_fee: cost is the
guarantee cost minus the target at a candidate fee; the loop returns the
midpoint as soon as the absolute cost is below tolerance, otherwise moves
the bracket and, when the iteration budget runs out, returns the midpoint
of the final bracket.  Also returns the list of fees probed. -/
def fair_fee_bisect (cost : ℚ → ℚ) (low high tol : ℚ) : ℕ → ℚ × List ℚ
  | 0 => ((low + high) / 2, [])
  | Nat.succ fuel =>
    let mid := (low + high) / 2
    let c := cost mid
    if |c| < tol then (mid, [mid])
    else if c > 0 then
      let r := fair_fee_bisect cost mid high tol fuel
      (r.1, mid :: r.2)
    else
      let r := fair_fee_bisect cost low mid tol fuel
      (r.1, mid :: r.2)

/-- GLWBPathSimulator.calculate_fair_fee.  The Monte Carlo guarantee cost
is abstracted as cost_at fee n, the cost (guarantee cost minus target) of
pricing at a given fee with a given path count; every probe made by the
source builds a simulator with n_paths // 2 paths.  Returns the fee
together with the trace of (fee, path count) evaluations performed. -/
def calculate_fair_fee (cost_at : ℚ → ℕ → ℚ) (n_paths : ℕ) (fee_bounds : ℚ × ℚ)
    (tol : ℚ) (max_iterations : ℕ) : ℚ × List (ℚ × ℕ) :=
  let probe_paths := n_paths / 2
  let r := fair_fee_bisect (fun fee => cost_at fee probe_paths)
    fee_bounds.1 fee_bounds.2 tol max_iterations
  (r.1, r.2.map (fun f => (f, probe_paths)))

/-! ## behavioral/dynamic_lapse.py, dynamic lapse -/

/-- Lapse rate assumptions (class LapseAssumptions). -/
structure LapseAssumptions where
  base_annual_lapse : ℝ
  min_lapse : ℝ
  max_lapse : ℝ
  sensitivity : ℝ

/-- Result of a lapse calculation (class LapseResult). -/
structure LapseResult where
  lapse_rate : ℝ
  moneyness : ℝ
  adjustment_factor : ℝ

/-- DynamicLapseModel.calculate_lapse: validates the inputs (account value
must be positive, GWB non-negative), computes moneyness av / gwb (1 when
gwb is 0), raises it to the sensitivity, reduces the base rate by 80%
while the surrender period is not complete, and clips the product to the
floor and cap.  none models the ValueError paths. -/
noncomputable def DynamicLapseModel.calculate_lapse (a : LapseAssumptions) (gwb av : ℝ)
    (surrender_period_complete : Bool) : Option LapseResult :=
  if av ≤ 0 then none
  else if gwb < 0 then none
  else
    let moneyness : ℝ := if gwb > 0 then av / gwb else 1
    let adjustment_factor : ℝ := moneyness ^ a.sensitivity
    let base_rate : ℝ :=
      if surrender_period_complete then a.base_annual_lapse
      else a.base_annual_lapse * 0.2
    let lapse_rate : ℝ := npClip (base_rate * adjustment_factor) a.min_lapse a.max_lapse
    some ⟨lapse_rate, moneyness, adjustment_factor⟩

/-- The lapse rate computed by DynamicLapseModel.calculate_lapse, with 0
standing for the ValueError paths. -/
noncomputable def lapseRateOf (a : LapseAssumptions) (gwb av : ℝ)
    (surrender_period_complete : Bool) : ℝ :=
  ((DynamicLapseModel.calculate_lapse a gwb av surrender_period_complete).map
    LapseResult.lapse_rate).getD 0

/-! ## regulatory/scenarios.py -/

/-- Vasicek interest rate model parameters (class VasicekParams). -/
structure VasicekParams where
  kappa : ℝ
  theta : ℝ
  sigma : ℝ

/-- Equity model parameters (class EquityParams). -/
structure EquityParams where
  mu : ℝ
  sigma : ℝ

/-- Single economic scenario (class EconomicScenario). -/
structure EconomicScenario where
  rates : List ℝ
  equity_returns : List ℝ
  scenario_id : ℕ

/-- ScenarioGenerator._generate_correlated_shocks for one scenario row:
the rate shocks are z1 unchanged and the equity shocks mix in z2 through
the Cholesky factor, elementwise rho * z1 + sqrt(1 - rho^2) * z2. -/
noncomputable def generate_correlated_shocks (correlation : ℝ) (z1 z2 : List ℝ) :
    List ℝ × List ℝ :=
  (z1, List.zipWith
    (fun a b => correlation * a + Real.sqrt (1 - correlation ^ 2) * b) z1 z2)

/-- ScenarioGenerator._generate_vasicek_paths for one scenario row: Euler
step r + kappa * (theta - r) + sigma * z, floored at zero, the floored
value feeding the next step. -/
noncomputable def vasicekPath (p : VasicekParams) (r_prev : ℝ) : List ℝ → List ℝ
  | [] => []
  | z :: zs =>
    let r := max (r_prev + p.kappa * (p.theta - r_prev) + p.sigma * z) 0
    r :: vasicekPath p r zs

/-- ScenarioGenerator._generate_gbm_returns for one scenario row: each
annual simple return is exp((mu - sigma^2 / 2) + sigma * z) - 1. -/
noncomputable def gbmReturns (p : EquityParams) (shocks : List ℝ) : List ℝ :=
  shocks.map (fun z => Real.exp ((p.mu - 0.5 * p.sigma ^ 2) + p.sigma * z) - 1)

/-- ScenarioGenerator.generate_ag43_scenarios, with the iid normal draws
z1 and z2 (one row per scenario) made explicit inputs: checks the
correlation bound, mixes the shocks, builds the Vasicek rate path and the
GBM return path per scenario, and numbers the scenarios in row order.
none models the ValueError on a correlation outside of the unit
interval. -/
noncomputable def generate_ag43_scenarios (initial_rate : ℝ) (rate_params : VasicekParams)
    (equity_params : EquityParams) (correlation : ℝ) (z1 z2 : List (List ℝ)) :
    Option (List EconomicScenario) :=
  if correlation < -1 ∨ 1 < correlation then none
  else
    let rows := List.zipWith (fun r1 r2 =>
      (vasicekPath rate_params initial_rate
        (generate_correlated_shocks correlation r1 r2).1,
       gbmReturns equity_params (generate_correlated_shocks correlation r1 r2).2)) z1 z2
    some (rows.enum.map (fun p => ⟨p.2.1, p.2.2, p.1⟩))

/-! ## Theorems -/

/-- C3: for every ValidationReport, the overall status is the worst status
across the gate results: HALT if any gate result is HALT, otherwise WARN
if any is WARN, otherwise PASS (which is what the severity-maximum
computes). -/
theorem validation_report_worst_status (rep : ValidationReport) :
    rep.overall_status = specWorstStatus rep := by
  obtain ⟨rs⟩ := rep
  induction rs with
  | nil => rfl
  | cons r rs ih =>
    have hspec : specWorstStatus ⟨r :: rs⟩ = worstStatus r.status (specWorstStatus ⟨rs⟩) := rfl
    rw [hspec, ← ih]
    rcases hr : r.status <;>
      rcases h1 : rs.any (fun x => x.status == GateStatus.halt) <;>
      rcases h2 : rs.any (fun x => x.status == GateStatus.warn) <;>
        simp [ValidationReport.overall_status, worstStatus, GateStatus.severity, hr, h1, h2]

/-- C2 (amended): for every FIA pricing result with positive option budget
and embedded option value above 1.5 times the budget, the FIA option
budget gate (at its default tolerance 0.5) returns WARN, and the overall
status of any validation report containing that gate result is never
PASS. -/
theorem fia_option_budget_gate_warn (embedded option_budget expected : ℚ)
    (rep : ValidationReport) (hb : 0 < option_budget)
    (he : 3/2 * option_budget < embedded)
    (hmem : FIAOptionBudgetGate.check (1/2)
      (GatePricingResult.fia embedded option_budget expected) ∈ rep.results) :
    (FIAOptionBudgetGate.check (1/2)
      (GatePricingResult.fia embedded option_budget expected)).status = GateStatus.warn ∧
    rep.overall_status ≠ GateStatus.pass := by
  have hcheck : FIAOptionBudgetGate.check (1/2)
      (GatePricingResult.fia embedded option_budget expected)
        = ⟨GateStatus.warn, "fia_option_budget"⟩ := by
    show (if option_budget ≤ 0 then (⟨GateStatus.warn, "fia_option_budget"⟩ : GateResult)
      else if embedded / option_budget > 1 + 1/2 then ⟨GateStatus.warn, "fia_option_budget"⟩
      else ⟨GateStatus.pass, "fia_option_budget"⟩) = ⟨GateStatus.warn, "fia_option_budget"⟩
    rw [if_neg (not_le.mpr hb), if_pos]
    have h32 : (1 : ℚ) + 1/2 = 3/2 := by norm_num
    rw [h32, gt_iff_lt, lt_div_iff₀ hb]
    linarith
  refine ⟨by rw [hcheck], ?_⟩
  intro hpass
  unfold ValidationReport.overall_status at hpass
  split_ifs at hpass with hhalt hwarn
  all_goals try simp at hpass
  all_goals
    exact hwarn (List.any_eq_true.mpr ⟨_, hmem, by rw [hcheck]; rfl⟩)

/-- Witness for C2 (amended): a FIA result with budget 1 and embedded
option value 2 makes the gate warn and the report containing it is not
PASS. -/
theorem fia_option_budget_gate_warn_witness :
    (FIAOptionBudgetGate.check (1/2) (GatePricingResult.fia 2 1 0)).status
        = GateStatus.warn ∧
    (ValidationReport.mk
      [FIAOptionBudgetGate.check (1/2) (GatePricingResult.fia 2 1 0)]).overall_status
        ≠ GateStatus.pass :=
  fia_option_budget_gate_warn 2 1 0
    ⟨[FIAOptionBudgetGate.check (1/2) (GatePricingResult.fia 2 1 0)]⟩
    (by norm_num) (by norm_num)
    (List.mem_singleton_self (FIAOptionBudgetGate.check (1/2) (GatePricingResult.fia 2 1 0)))

/-- Counterexample to C2 as stated: a FIA result with positive budget 1
and embedded option value 2 (above 1.5 times the budget) makes the FIA
option budget gate return WARN rather than HALT, and a validation run
containing that gate result has overall status WARN, not HALT. -/
theorem fia_option_budget_gate_no_halt :
    0 < (1 : ℚ) ∧ 3/2 * (1 : ℚ) < 2 ∧
    (FIAOptionBudgetGate.check (1/2) (GatePricingResult.fia 2 1 0)).status
        ≠ GateStatus.halt ∧
    (ValidationReport.mk
      [FIAOptionBudgetGate.check (1/2) (GatePricingResult.fia 2 1 0)]).overall_status
        = GateStatus.warn := by
  have hcheck : FIAOptionBudgetGate.check (1/2) (GatePricingResult.fia 2 1 0)
      = ⟨GateStatus.warn, "fia_option_budget"⟩ := by
    show (if (1 : ℚ) ≤ 0 then (⟨GateStatus.warn, "fia_option_budget"⟩ : GateResult)
      else if (2 : ℚ) / 1 > 1 + 1/2 then ⟨GateStatus.warn, "fia_option_budget"⟩
      else ⟨GateStatus.pass, "fia_option_budget"⟩) = ⟨GateStatus.warn, "fia_option_budget"⟩
    rw [if_neg (by norm_num), if_pos (by norm_num)]
  refine ⟨by norm_num, by norm_num, ?_, ?_⟩
  · rw [hcheck]
    simp
  · rw [hcheck]
    decide

/-- C4: the FIA pricer determines the crediting method by priority
cap, then participation, then spread, then trigger, and a product with no
crediting field set yields an error (none), never a default method. -/
theorem fia_crediting_priority (p : FIAProduct) :
    (∀ c, p.cap_rate = some c →
      FIAPricer.determine_crediting_method p = some (CreditingMethod.cap c)) ∧
    (∀ pr, p.cap_rate = none → p.participation_rate = some pr →
      FIAPricer.determine_crediting_method p = some (CreditingMethod.participation pr none)) ∧
    (∀ s, p.cap_rate = none → p.participation_rate = none → p.spread_rate = some s →
      FIAPricer.determine_crediting_method p = some (CreditingMethod.spread s none)) ∧
    (∀ t, p.cap_rate = none → p.participation_rate = none → p.spread_rate = none →
      p.performance_triggered_rate = some t →
      FIAPricer.determine_crediting_method p = some (CreditingMethod.trigger t)) ∧
    (p.cap_rate = none → p.participation_rate = none → p.spread_rate = none →
      p.performance_triggered_rate = none →
      FIAPricer.determine_crediting_method p = none) := by
  refine ⟨?_, ?_, ?_, ?_, ?_⟩
  · intro c hc
    simp [FIAPricer.determine_crediting_method, hc]
  · intro pr hc hp
    simp [FIAPricer.determine_crediting_method, hc, hp]
  · intro s hc hp hs
    simp [FIAPricer.determine_crediting_method, hc, hp, hs]
  · intro t hc hp hs ht
    simp [FIAPricer.determine_crediting_method, hc, hp, hs, ht]
  · intro hc hp hs ht
    simp [FIAPricer.determine_crediting_method, hc, hp, hs, ht]

/-- Witness for C4: one concrete product per dispatch branch, including
the no-crediting-field error case. -/
theorem fia_crediting_priority_witness :
    FIAPricer.determine_crediting_method ⟨some 1, some 2, some 3, some 4⟩
        = some (CreditingMethod.cap 1) ∧
    FIAPricer.determine_crediting_method ⟨none, some 2, some 3, some 4⟩
        = some (CreditingMethod.participation 2 none) ∧
    FIAPricer.determine_crediting_method ⟨none, none, some 3, some 4⟩
        = some (CreditingMethod.spread 3 none) ∧
    FIAPricer.determine_crediting_method ⟨none, none, none, some 4⟩
        = some (CreditingMethod.trigger 4) ∧
    FIAPricer.determine_crediting_method ⟨none, none, none, none⟩ = none :=
  ⟨(fia_crediting_priority ⟨some 1, some 2, some 3, some 4⟩).1 1 rfl,
   (fia_crediting_priority ⟨none, some 2, some 3, some 4⟩).2.1 2 rfl rfl,
   (fia_crediting_priority ⟨none, none, some 3, some 4⟩).2.2.1 3 rfl rfl rfl,
   (fia_crediting_priority ⟨none, none, none, some 4⟩).2.2.2.1 4 rfl rfl rfl rfl,
   (fia_crediting_priority ⟨none, none, none, none⟩).2.2.2.2 rfl rfl rfl rfl⟩

/-- C9: whenever the RILA pricer accepts a product, the max_loss field of
its result is 1 - b for a buffer product with buffer rate b and f for a
floor product with floor rate f (the floor level is carried in the
buffer_rate field). -/
theorem rila_max_loss_consistency (p : RILAProduct) (term : Option ℚ)
    (protection_type : String) (max_loss : ℚ)
    (h : RILAPricer.price p term = some (protection_type, max_loss)) :
    ∃ b, p.buffer_rate = some b ∧
      ((p.is_buffer = true ∧ protection_type = "buffer" ∧ max_loss = 1 - b) ∨
       (p.is_buffer = false ∧ protection_type = "floor" ∧ max_loss = b)) := by
  unfold RILAPricer.price at h
  rcases ht : (match term with | some t => some t | none => p.term_years) with _ | t <;>
    rw [ht] at h
  · exact absurd h (by simp)
  · dsimp only at h
    rcases le_or_lt t 0 with h0 | h0
    · rw [if_pos h0] at h
      exact absurd h (by simp)
    · rw [if_neg (not_le.mpr h0)] at h
      rcases hb : p.buffer_rate with _ | b <;> rw [hb] at h
      · exact absurd h (by simp)
      · refine ⟨b, rfl, ?_⟩
        rcases hbuf : p.is_buffer <;> rw [hbuf] at h <;> simp at h
        · exact Or.inr ⟨rfl, h.1.symm, h.2.symm⟩
        · exact Or.inl ⟨rfl, h.1.symm, h.2.symm⟩

/-- Witness for C9: a 10% buffer product gives max loss 0.9 and a 10%
floor product gives max loss 0.1. -/
theorem rila_max_loss_consistency_witness :
    (∃ b, (RILAProduct.mk "Losses Covered Up To" (some (1/10)) (some (3/20)) (some 1)).buffer_rate
        = some b ∧
      (((RILAProduct.mk "Losses Covered Up To" (some (1/10)) (some (3/20)) (some 1)).is_buffer
          = true ∧ "buffer" = "buffer" ∧ (9:ℚ)/10 = 1 - b) ∨
       ((RILAProduct.mk "Losses Covered Up To" (some (1/10)) (some (3/20)) (some 1)).is_buffer
          = false ∧ "buffer" = "floor" ∧ (9:ℚ)/10 = b))) ∧
    (∃ b, (RILAProduct.mk "Losses Covered After" (some (1/10)) (some (3/20)) (some 1)).buffer_rate
        = some b ∧
      (((RILAProduct.mk "Losses Covered After" (some (1/10)) (some (3/20)) (some 1)).is_buffer
          = true ∧ "floor" = "buffer" ∧ (1:ℚ)/10 = 1 - b) ∨
       ((RILAProduct.mk "Losses Covered After" (some (1/10)) (some (3/20)) (some 1)).is_buffer
          = false ∧ "floor" = "floor" ∧ (1:ℚ)/10 = b))) :=
  ⟨rila_max_loss_consistency _ none "buffer" (9/10) (by
      have hbuf : (RILAProduct.mk "Losses Covered Up To" (some (1/10)) (some (3/20))
          (some 1)).is_buffer = true := by decide
      simp only [RILAPricer.price, hbuf]
      norm_num),
   rila_max_loss_consistency _ none "floor" (1/10) (by
      have hbuf : (RILAProduct.mk "Losses Covered After" (some (1/10)) (some (3/20))
          (some 1)).is_buffer = false := by decide
      simp only [RILAPricer.price, hbuf]
      norm_num)⟩

/-- The source's utilization (base plus age adjustment, then ramp, then
clip) equals the spec's ramp times (base plus age adjustment), clipped. -/
lemma calculate_utilization_eq_ramp (a : WithdrawalAssumptions) (age : ℤ)
    (years : ℕ) :
    WithdrawalModel.calculate_utilization a age years =
      npClip (specWithdrawalRamp years *
          (a.base_utilization + a.age_sensitivity * ((max 0 (age - 65) : ℤ) : ℚ)))
        a.min_utilization a.max_utilization := by
  unfold WithdrawalModel.calculate_utilization specWithdrawalRamp
  rcases years with _ | _ | _ | n
  · norm_num [mul_comm]
  · norm_num [mul_comm]
  · norm_num [mul_comm]
  · dsimp only
    norm_num
    rw [if_neg (by omega), if_neg (by omega)]

/-- C7: with GWB at least 0, withdrawal rate in the unit interval and any
age and withdrawal tenure, the withdrawal model returns
GWB * rate * u with u the clipped, ramped utilization of the spec. -/
theorem withdrawal_formula (a : WithdrawalAssumptions) (gwb withdrawal_rate : ℚ)
    (age : ℤ) (years : ℕ) (hg : 0 ≤ gwb) (h0 : 0 ≤ withdrawal_rate)
    (h1 : withdrawal_rate ≤ 1) :
    WithdrawalModel.calculate_withdrawal a gwb withdrawal_rate age years =
      some ⟨gwb * withdrawal_rate *
          npClip (specWithdrawalRamp years *
              (a.base_utilization + a.age_sensitivity * ((max 0 (age - 65) : ℤ) : ℚ)))
            a.min_utilization a.max_utilization,
        npClip (specWithdrawalRamp years *
            (a.base_utilization + a.age_sensitivity * ((max 0 (age - 65) : ℤ) : ℚ)))
          a.min_utilization a.max_utilization,
        gwb * withdrawal_rate⟩ := by
  unfold WithdrawalModel.calculate_withdrawal
  rw [if_neg (not_lt.mpr hg), if_neg (by push_neg; exact ⟨h0, h1⟩),
    calculate_utilization_eq_ramp]

/-- Witness for C7: GWB 100, withdrawal rate 5%, age 70, first withdrawal
year. -/
theorem withdrawal_formula_witness :
    WithdrawalModel.calculate_withdrawal ⟨7/10, 1/100, 3/10, 1⟩ 100 (1/20) 70 0 =
      some ⟨100 * (1/20) *
          npClip (specWithdrawalRamp 0 *
              ((7:ℚ)/10 + 1/100 * ((max 0 ((70:ℤ) - 65) : ℤ) : ℚ))) (3/10) 1,
        npClip (specWithdrawalRamp 0 *
            ((7:ℚ)/10 + 1/100 * ((max 0 ((70:ℤ) - 65) : ℤ) : ℚ))) (3/10) 1,
        100 * (1/20)⟩ :=
  withdrawal_formula ⟨7/10, 1/100, 3/10, 1⟩ 100 (1/20) 70 0
    (by norm_num) (by norm_num) (by norm_num)

/-- The survival tail has one entry per lapse rate. -/
lemma survival_from_length (dt : ℚ) :
    ∀ (ls : List ℚ) (s : ℚ), (survival_from s dt ls).length = ls.length := by
  intro ls
  induction ls with
  | nil => intro s; rfl
  | cons l ls ih => intro s; simp [survival_from, ih]

/-- Every entry of the survival tail lies between 0 and the starting
value, when the lapse rates and the step are non-negative. -/
lemma survival_from_bounds (dt : ℚ) (hdt : 0 ≤ dt) :
    ∀ (ls : List ℚ) (s : ℚ), 0 ≤ s → (∀ l ∈ ls, 0 ≤ l) →
      ∀ x ∈ survival_from s dt ls, 0 ≤ x ∧ x ≤ s := by
  intro ls
  induction ls with
  | nil => intro s _ _ x hx; exact absurd hx (by simp [survival_from])
  | cons l ls ih =>
    intro s hs hl x hx
    have hstay0 : (0:ℚ) ≤ max (1 - l * dt) 0 := le_max_right _ _
    have hstay1 : max (1 - l * dt) 0 ≤ 1 := by
      have : 0 ≤ l * dt := mul_nonneg (hl l (List.mem_cons_self l ls)) hdt
      have h1 : 1 - l * dt ≤ 1 := by linarith
      exact max_le h1 zero_le_one
    have hs2_0 : 0 ≤ s * max (1 - l * dt) 0 := mul_nonneg hs hstay0
    have hs2_le : s * max (1 - l * dt) 0 ≤ s := mul_le_of_le_one_right hs hstay1
    rcases List.mem_cons.mp hx with rfl | hx'
    · exact ⟨hs2_0, hs2_le⟩
    · have := ih (s * max (1 - l * dt) 0) hs2_0
        (fun y hy => hl y (List.mem_cons_of_mem l hy)) x hx'
      exact ⟨this.1, this.2.trans hs2_le⟩

/-- Starting anywhere non-negative, the survival values never increase
along the curve. -/
lemma survival_from_chain (dt : ℚ) (hdt : 0 ≤ dt) :
    ∀ (ls : List ℚ) (s : ℚ), 0 ≤ s → (∀ l ∈ ls, 0 ≤ l) →
      List.Chain' (fun a b => b ≤ a) (s :: survival_from s dt ls) := by
  intro ls
  induction ls with
  | nil => intro s _ _; simp [survival_from]
  | cons l ls ih =>
    intro s hs hl
    have hstay0 : (0:ℚ) ≤ max (1 - l * dt) 0 := le_max_right _ _
    have hstay1 : max (1 - l * dt) 0 ≤ 1 := by
      have : 0 ≤ l * dt := mul_nonneg (hl l (List.mem_cons_self l ls)) hdt
      have h1 : 1 - l * dt ≤ 1 := by linarith
      exact max_le h1 zero_le_one
    have hs2_0 : 0 ≤ s * max (1 - l * dt) 0 := mul_nonneg hs hstay0
    have hs2_le : s * max (1 - l * dt) 0 ≤ s := mul_le_of_le_one_right hs hstay1
    show List.Chain' (fun a b => b ≤ a)
      (s :: (s * max (1 - l * dt) 0) :: survival_from (s * max (1 - l * dt) 0) dt ls)
    rw [List.chain'_cons]
    exact ⟨hs2_le, ih (s * max (1 - l * dt) 0) hs2_0
      (fun y hy => hl y (List.mem_cons_of_mem l hy))⟩

/-- C10: for non-negative lapse rates and non-negative dt, the survival
curve has length n + 1, starts at 1, never increases, and stays within
the unit interval (the per-step stay probability is floored at 0). -/
theorem survival_probability_invariants (lapse_rates : List ℚ) (dt : ℚ)
    (hl : ∀ l ∈ lapse_rates, 0 ≤ l) (hdt : 0 ≤ dt) :
    (calculate_survival_probability lapse_rates dt).length = lapse_rates.length + 1 ∧
    (calculate_survival_probability lapse_rates dt).head? = some 1 ∧
    List.Chain' (fun a b => b ≤ a) (calculate_survival_probability lapse_rates dt) ∧
    (∀ x ∈ calculate_survival_probability lapse_rates dt, 0 ≤ x ∧ x ≤ 1) := by
  refine ⟨?_, rfl, ?_, ?_⟩
  · simp [calculate_survival_probability, survival_from_length]
  · exact survival_from_chain dt hdt lapse_rates 1 zero_le_one hl
  · intro x hx
    rcases List.mem_cons.mp hx with rfl | hx'
    · exact ⟨zero_le_one, le_refl 1⟩
    · exact survival_from_bounds dt hdt lapse_rates 1 zero_le_one hl x hx'

/-- Witness for C10: the lapse rates 0.5 and 2 with dt 1; the second step
has lapse * dt above 1 and the curve clamps at 0 instead of turning
negative. -/
theorem survival_probability_invariants_witness :
    (∀ l ∈ [(1:ℚ)/2, 2], 0 ≤ l) ∧ (0:ℚ) ≤ 1 ∧
    ((calculate_survival_probability [(1:ℚ)/2, 2] 1).length = 2 + 1 ∧
      (calculate_survival_probability [(1:ℚ)/2, 2] 1).head? = some 1 ∧
      List.Chain' (fun a b => b ≤ a) (calculate_survival_probability [(1:ℚ)/2, 2] 1) ∧
      (∀ x ∈ calculate_survival_probability [(1:ℚ)/2, 2] 1, 0 ≤ x ∧ x ≤ 1)) :=
  ⟨by norm_num, zero_le_one,
    survival_probability_invariants [(1:ℚ)/2, 2] 1 (by norm_num) zero_le_one⟩

/-- Bisection keeps the returned fee inside the initial bracket. -/
lemma fair_fee_bisect_bounds (cost : ℚ → ℚ) (tol : ℚ) :
    ∀ (fuel : ℕ) (low high : ℚ), low ≤ high →
      low ≤ (fair_fee_bisect cost low high tol fuel).1 ∧
      (fair_fee_bisect cost low high tol fuel).1 ≤ high := by
  intro fuel
  induction fuel with
  | zero =>
    intro low high h
    constructor <;> [skip; skip] <;> simp [fair_fee_bisect] <;> linarith
  | succ n ih =>
    intro low high h
    have hmid_lo : low ≤ (low + high) / 2 := by linarith
    have hmid_hi : (low + high) / 2 ≤ high := by linarith
    unfold fair_fee_bisect
    dsimp only
    split_ifs with h1 h2
    · exact ⟨hmid_lo, hmid_hi⟩
    · have := ih ((low + high) / 2) high hmid_hi
      exact ⟨hmid_lo.trans this.1, this.2⟩
    · have := ih low ((low + high) / 2) hmid_lo
      exact ⟨this.1, this.2.trans hmid_hi⟩

/-- C1 (amended): with the default bounds (0.001, 0.03), the fair-fee
solver returns a fee inside the bounds; every probe prices with half the
configured path count; and as soon as the absolute cost at the midpoint
is below tolerance the midpoint is returned.  The source returns the
final fee without re-pricing it at the full path count. -/
theorem calculate_fair_fee_spec (cost_at : ℚ → ℕ → ℚ) (n_paths : ℕ) (tol : ℚ)
    (max_iterations : ℕ) :
    (1/1000 ≤ (calculate_fair_fee cost_at n_paths (1/1000, 3/100) tol max_iterations).1 ∧
      (calculate_fair_fee cost_at n_paths (1/1000, 3/100) tol max_iterations).1 ≤ 3/100) ∧
    (∀ pr ∈ (calculate_fair_fee cost_at n_paths (1/1000, 3/100) tol max_iterations).2,
      pr.2 = n_paths / 2) ∧
    (0 < max_iterations →
      |cost_at ((1/1000 + 3/100) / 2) (n_paths / 2)| < tol →
      (calculate_fair_fee cost_at n_paths (1/1000, 3/100) tol max_iterations).1
        = (1/1000 + 3/100) / 2) := by
  refine ⟨?_, ?_, ?_⟩
  · exact fair_fee_bisect_bounds (fun fee => cost_at fee (n_paths / 2)) tol
      max_iterations (1/1000) (3/100) (by norm_num)
  · intro pr hpr
    unfold calculate_fair_fee at hpr
    rcases List.mem_map.mp hpr with ⟨f, _, rfl⟩
    rfl
  · intro hiter htol
    obtain ⟨k, rfl⟩ : ∃ k, max_iterations = k + 1 :=
      ⟨max_iterations - 1, by omega⟩
    unfold calculate_fair_fee fair_fee_bisect
    dsimp only
    rw [if_pos htol]

/-- Witness for C1 (amended): a cost oracle that is identically zero
converges at the first midpoint. -/
theorem calculate_fair_fee_spec_witness :
    0 < 20 ∧ |(0:ℚ)| < 1/1000 ∧
    (calculate_fair_fee (fun _ _ => (0:ℚ)) 100 (1/1000, 3/100) (1/1000) 20).1
      = (1/1000 + 3/100) / 2 :=
  ⟨by norm_num, by norm_num,
    (calculate_fair_fee_spec (fun _ _ => (0:ℚ)) 100 (1/1000) 20).2.2
      (by norm_num) (by norm_num)⟩

/-- Counterexample to C1 as stated: with 100 configured paths, an
identically-zero cost oracle and the default bounds and tolerance, the
solver performs exactly one evaluation, at fee 0.0155 with 50 paths; no
evaluation — in particular none of the returned fee — is performed at the
full path count 100. -/
theorem calculate_fair_fee_no_full_reval :
    (calculate_fair_fee (fun _ _ => (0:ℚ)) 100 (1/1000, 3/100) (1/1000) 20).2
        = [(31/2000, 50)] ∧
    (∀ pr ∈ (calculate_fair_fee (fun _ _ => (0:ℚ)) 100 (1/1000, 3/100) (1/1000) 20).2,
      pr.2 ≠ 100) := by
  have htrace : (calculate_fair_fee (fun _ _ => (0:ℚ)) 100 (1/1000, 3/100) (1/1000) 20).2
      = [(31/2000, 50)] := by
    unfold calculate_fair_fee fair_fee_bisect
    dsimp only
    norm_num
  refine ⟨htrace, ?_⟩
  intro pr hpr
  rw [htrace] at hpr
  rcases List.mem_singleton.mp hpr with rfl
  norm_num

/-- Closed form of the lapse calculation on valid inputs, phrased exactly
as the source computes it. -/
lemma calculate_lapse_closed_form (a : LapseAssumptions) (gwb av : ℝ)
    (sp : Bool) (hg : 0 ≤ gwb) (ha : 0 < av) :
    DynamicLapseModel.calculate_lapse a gwb av sp =
      some ⟨npClip ((if sp then a.base_annual_lapse else a.base_annual_lapse * 0.2) *
          (if 0 < gwb then av / gwb else 1) ^ a.sensitivity) a.min_lapse a.max_lapse,
        (if 0 < gwb then av / gwb else 1),
        (if 0 < gwb then av / gwb else 1) ^ a.sensitivity⟩ := by
  unfold DynamicLapseModel.calculate_lapse
  rw [if_neg (not_le.mpr ha), if_neg (not_lt.mpr hg)]

/-- C5: with GWB at least 0 and positive AV, the dynamic lapse model
returns clip(base * m^sensitivity, min, max) with m = AV/GWB when GWB is
positive and 1 when GWB is zero, and base reduced to 0.2 times the annual
base lapse while the surrender period is not complete. -/
theorem dynamic_lapse_formula (a : LapseAssumptions) (gwb av : ℝ) (sp : Bool)
    (hg : 0 ≤ gwb) (ha : 0 < av) :
    DynamicLapseModel.calculate_lapse a gwb av sp =
      some ⟨npClip ((if sp then a.base_annual_lapse else 0.2 * a.base_annual_lapse) *
          (if gwb = 0 then 1 else av / gwb) ^ a.sensitivity) a.min_lapse a.max_lapse,
        (if gwb = 0 then 1 else av / gwb),
        (if gwb = 0 then 1 else av / gwb) ^ a.sensitivity⟩ := by
  rw [calculate_lapse_closed_form a gwb av sp hg ha]
  have hgh : (if 0 < gwb then av / gwb else 1) = (if gwb = 0 then 1 else av / gwb) := by
    rcases eq_or_lt_of_le hg with h | h
    · rw [if_neg (by rw [← h]; exact lt_irrefl 0), if_pos h.symm]
    · rw [if_pos h, if_neg (ne_of_gt h)]
  rw [hgh, mul_comm a.base_annual_lapse (0.2 : ℝ)]

/-- Witness for C5: base lapse 1, bounds 0 and 1, sensitivity 1, GWB 1,
AV 2, surrender period complete. -/
theorem dynamic_lapse_formula_witness :
    (0:ℝ) ≤ 1 ∧ (0:ℝ) < 2 ∧
    DynamicLapseModel.calculate_lapse ⟨1, 0, 1, 1⟩ 1 2 true =
      some ⟨npClip ((if true then (1:ℝ) else 0.2 * 1) *
          (if (1:ℝ) = 0 then 1 else 2 / 1) ^ (1:ℝ)) 0 1,
        (if (1:ℝ) = 0 then 1 else 2 / 1),
        (if (1:ℝ) = 0 then 1 else 2 / 1) ^ (1:ℝ)⟩ :=
  ⟨zero_le_one, two_pos, dynamic_lapse_formula ⟨1, 0, 1, 1⟩ 1 2 true zero_le_one two_pos⟩

/-- C6 (amended): with non-negative sensitivity and non-negative base
annual lapse, for a fixed surrender flag and positive account values
av1 ≤ av2 against the same positive GWB, the computed lapse rate at av1
is at most the lapse rate at av2. -/
theorem dynamic_lapse_monotone (a : LapseAssumptions) (sp : Bool)
    (gwb av1 av2 : ℝ) (hsens : 0 ≤ a.sensitivity)
    (hbase : 0 ≤ a.base_annual_lapse) (hg : 0 < gwb) (h1 : 0 < av1)
    (h12 : av1 ≤ av2) :
    lapseRateOf a gwb av1 sp ≤ lapseRateOf a gwb av2 sp := by
  have h2 : 0 < av2 := lt_of_lt_of_le h1 h12
  rw [lapseRateOf, lapseRateOf, calculate_lapse_closed_form a gwb av1 sp hg.le h1,
    calculate_lapse_closed_form a gwb av2 sp hg.le h2]
  simp only [Option.map_some', Option.getD_some, if_pos hg]
  have hm : av1 / gwb ≤ av2 / gwb := by gcongr
  have hm0 : 0 ≤ av1 / gwb := div_nonneg h1.le hg.le
  have hr : (av1 / gwb) ^ a.sensitivity ≤ (av2 / gwb) ^ a.sensitivity :=
    Real.rpow_le_rpow hm0 hm hsens
  have hB : 0 ≤ (if sp then a.base_annual_lapse else a.base_annual_lapse * 0.2) := by
    split_ifs
    · exact hbase
    · exact mul_nonneg hbase (by norm_num)
  have hx := mul_le_mul_of_nonneg_left hr hB
  exact min_le_min (max_le_max hx (le_refl a.min_lapse)) (le_refl a.max_lapse)

/-- Witness for C6 (amended): base lapse 1, bounds 0 and 1, sensitivity
1, GWB 1, account values 1 and 2. -/
theorem dynamic_lapse_monotone_witness :
    (0:ℝ) ≤ 1 ∧ (0:ℝ) < 1 ∧ (1:ℝ) ≤ 2 ∧
    lapseRateOf ⟨1, 0, 1, 1⟩ 1 1 true ≤ lapseRateOf ⟨1, 0, 1, 1⟩ 1 2 true :=
  ⟨zero_le_one, zero_lt_one, one_le_two,
    dynamic_lapse_monotone ⟨1, 0, 1, 1⟩ true 1 1 2 zero_le_one zero_le_one
      zero_lt_one zero_lt_one one_le_two⟩

/-- Counterexample to C6 as stated: an assumption set with a negative
base annual lapse (the LapseAssumptions record does not constrain it) and
wide clipping bounds makes the lapse rate strictly decrease in the
account value: with base -1, bounds -10 and 10, sensitivity 1, GWB 1,
the lapse rate is -1 at AV 1 and -2 at AV 2. -/
theorem dynamic_lapse_not_monotone :
    lapseRateOf ⟨-1, -10, 10, 1⟩ 1 1 true = -1 ∧
    lapseRateOf ⟨-1, -10, 10, 1⟩ 1 2 true = -2 ∧
    ¬ ((-1:ℝ) ≤ -2) := by
  refine ⟨?_, ?_, by norm_num⟩
  · rw [lapseRateOf, calculate_lapse_closed_form ⟨-1, -10, 10, 1⟩ 1 1 true
      (by norm_num) (by norm_num)]
    simp only [Option.map_some', Option.getD_some]
    norm_num [npClip, Real.rpow_one]
  · rw [lapseRateOf, calculate_lapse_closed_form ⟨-1, -10, 10, 1⟩ 1 2 true
      (by norm_num) (by norm_num)]
    simp only [Option.map_some', Option.getD_some]
    norm_num [npClip, Real.rpow_one]

/-- A Vasicek path has one rate per shock. -/
lemma vasicekPath_length (p : VasicekParams) :
    ∀ (zs : List ℝ) (r0 : ℝ), (vasicekPath p r0 zs).length = zs.length := by
  intro zs
  induction zs with
  | nil => intro r0; rfl
  | cons z zs ih => intro r0; simp [vasicekPath, ih]

/-- Every rate on a Vasicek path is non-negative: each step is floored at
zero before it is stored. -/
lemma vasicekPath_nonneg (p : VasicekParams) :
    ∀ (zs : List ℝ) (r0 : ℝ), ∀ r ∈ vasicekPath p r0 zs, 0 ≤ r := by
  intro zs
  induction zs with
  | nil => intro r0 r hr; exact absurd hr (by simp [vasicekPath])
  | cons z zs ih =>
    intro r0 r hr
    rcases List.mem_cons.mp hr with rfl | hr'
    · exact le_max_right _ 0
    · exact ih _ r hr'

/-- Step relation of the Vasicek path: each stored rate after the first
is the floored Euler step from the previously stored (already floored)
rate. -/
lemma vasicekPath_get_succ (p : VasicekParams) :
    ∀ (zs : List ℝ) (r0 : ℝ) (i : ℕ) (ha : i + 1 < (vasicekPath p r0 zs).length)
      (hb : i < (vasicekPath p r0 zs).length) (hz : i + 1 < zs.length),
      (vasicekPath p r0 zs).get ⟨i + 1, ha⟩ =
        max ((vasicekPath p r0 zs).get ⟨i, hb⟩
          + p.kappa * (p.theta - (vasicekPath p r0 zs).get ⟨i, hb⟩)
          + p.sigma * zs.get ⟨i + 1, hz⟩) 0 := by
  intro zs
  induction zs with
  | nil => intro r0 i ha hb hz; exact absurd hz (by simp)
  | cons z zs ih =>
    intro r0 i ha hb hz
    rcases i with _ | j
    · rcases zs with _ | ⟨w, ws⟩
      · exact absurd hz (by simp)
      · rfl
    · have ha' : j + 1 < (vasicekPath p
          (max (r0 + p.kappa * (p.theta - r0) + p.sigma * z) 0) zs).length := by
        simpa [vasicekPath] using ha
      have hb' : j < (vasicekPath p
          (max (r0 + p.kappa * (p.theta - r0) + p.sigma * z) 0) zs).length := by
        simpa [vasicekPath] using hb
      have hz' : j + 1 < zs.length := by simpa using hz
      exact ih (max (r0 + p.kappa * (p.theta - r0) + p.sigma * z) 0) j ha' hb' hz'

/-- The second component of an enumerated entry is an element of the
list. -/
lemma mem_of_mem_enum {α : Type} {l : List α} {q : ℕ × α} (h : q ∈ l.enum) :
    q.2 ∈ l := by
  rw [List.enum_eq_zip_range] at h
  exact (List.of_mem_zip h).2

/-- Every element of a zipWith is the image of some pair. -/
lemma zipWith_mem {α β γ : Type} (f : α → β → γ) :
    ∀ (l1 : List α) (l2 : List β), ∀ x ∈ List.zipWith f l1 l2, ∃ a b, x = f a b := by
  intro l1
  induction l1 with
  | nil => intro l2 x hx; exact absurd hx (by simp)
  | cons a l1 ih =>
    intro l2 x hx
    rcases l2 with _ | ⟨b, l2⟩
    · exact absurd hx (by simp)
    · rcases List.mem_cons.mp hx with rfl | hx'
      · exact ⟨a, b, rfl⟩
      · exact ih l2 x hx'

/-- C8: the scenario generator accepts any correlation in the unit
interval; the equity shock is rho * z1 + sqrt(1 - rho^2) * z2 from the
rate shock z1; the rate paths follow r_next = max(0, r + kappa * (theta -
r) + sigma * z1); and every rate in every generated scenario is
non-negative. -/
theorem scenario_generator_spec (initial_rate : ℝ) (rp : VasicekParams)
    (ep : EquityParams) (correlation : ℝ) (z1 z2 : List (List ℝ))
    (hc1 : -1 ≤ correlation) (hc2 : correlation ≤ 1) :
    (∀ r1 r2 : List ℝ, generate_correlated_shocks correlation r1 r2 =
      (r1, List.zipWith (fun a b =>
        correlation * a + Real.sqrt (1 - correlation ^ 2) * b) r1 r2)) ∧
    (∀ (zs : List ℝ) (r0 : ℝ) (i : ℕ) (ha : i + 1 < (vasicekPath rp r0 zs).length)
      (hb : i < (vasicekPath rp r0 zs).length) (hz : i + 1 < zs.length),
      (vasicekPath rp r0 zs).get ⟨i + 1, ha⟩ =
        max 0 ((vasicekPath rp r0 zs).get ⟨i, hb⟩
          + rp.kappa * (rp.theta - (vasicekPath rp r0 zs).get ⟨i, hb⟩)
          + rp.sigma * zs.get ⟨i + 1, hz⟩)) ∧
    (∃ scens, generate_ag43_scenarios initial_rate rp ep correlation z1 z2
        = some scens ∧
      ∀ s ∈ scens, ∀ r ∈ s.rates, 0 ≤ r) := by
  refine ⟨fun r1 r2 => rfl, ?_, ?_⟩
  · intro zs r0 i ha hb hz
    rw [max_comm]
    exact vasicekPath_get_succ rp zs r0 i ha hb hz
  · refine ⟨((List.zipWith (fun r1 r2 =>
        (vasicekPath rp initial_rate (generate_correlated_shocks correlation r1 r2).1,
         gbmReturns ep (generate_correlated_shocks correlation r1 r2).2)) z1 z2).enum.map
          (fun q => ⟨q.2.1, q.2.2, q.1⟩)), ?_, ?_⟩
    · unfold generate_ag43_scenarios
      rw [if_neg (by push_neg; exact ⟨hc1, hc2⟩)]
    · intro s hs r hr
      rcases List.mem_map.mp hs with ⟨q, hq, rfl⟩
      have hq2 := mem_of_mem_enum hq
      obtain ⟨a, b, hab⟩ := zipWith_mem _ z1 z2 q.2 hq2
      have hrates : q.2.1 = vasicekPath rp initial_rate a := by rw [hab]; rfl
      rw [hrates] at hr
      exact vasicekPath_nonneg rp a initial_rate r hr

/-- Witness for C8: correlation 0, one scenario with one annual shock,
unit Vasicek parameters, initial rate 0. -/
theorem scenario_generator_spec_witness :
    (-1 : ℝ) ≤ 0 ∧ (0 : ℝ) ≤ 1 ∧
    ((∀ r1 r2 : List ℝ, generate_correlated_shocks 0 r1 r2 =
        (r1, List.zipWith (fun a b =>
          (0:ℝ) * a + Real.sqrt (1 - (0:ℝ) ^ 2) * b) r1 r2)) ∧
     (∀ (zs : List ℝ) (r0 : ℝ) (i : ℕ)
        (ha : i + 1 < (vasicekPath ⟨1, 1, 1⟩ r0 zs).length)
        (hb : i < (vasicekPath ⟨1, 1, 1⟩ r0 zs).length) (hz : i + 1 < zs.length),
        (vasicekPath ⟨1, 1, 1⟩ r0 zs).get ⟨i + 1, ha⟩ =
          max 0 ((vasicekPath ⟨1, 1, 1⟩ r0 zs).get ⟨i, hb⟩
            + (VasicekParams.mk 1 1 1).kappa * ((VasicekParams.mk 1 1 1).theta
              - (vasicekPath ⟨1, 1, 1⟩ r0 zs).get ⟨i, hb⟩)
            + (VasicekParams.mk 1 1 1).sigma * zs.get ⟨i + 1, hz⟩)) ∧
     (∃ scens, generate_ag43_scenarios 0 ⟨1, 1, 1⟩ ⟨1, 1⟩ 0 [[1]] [[1]]
        = some scens ∧ ∀ s ∈ scens, ∀ r ∈ s.rates, 0 ≤ r)) :=
  ⟨by norm_num, zero_le_one,
    scenario_generator_spec 0 ⟨1, 1, 1⟩ ⟨1, 1⟩ 0 [[1]] [[1]] (by norm_num) zero_le_one⟩
